import Mathlib

/-!
Verification of the core subsystems of the ngabi backend: the sliding-window
rate limiter (`app/middleware/rate_limit_middleware.py`), the response cache
(`app/core/cache.py`), the event bus (`app/core/events.py`), the webhook
dispatcher (`app/core/webhooks.py`), and the chat endpoint
(`app/routers/chat.py`).

Each Python function of interest is shallowly embedded as an executable Lean
definition; timestamps are modelled as integers, external effects (the Redis
store, the durable `events`/`webhooks` tables, HTTP calls, listener callbacks)
are passed in explicitly as function parameters or threaded state, and Python
exceptions are modelled with `Option`/`Except`/explicit outcome types.
-/

namespace NGabi

/-! ## Rate limiter — `RateLimitMiddleware` in `rate_limit_middleware.py` -/

/-- Python's `pat in s` substring test, via `splitOn`. -/
def containsSub (s pat : String) : Bool :=
  (s.splitOn pat).length != 1

/-- `RateLimitMiddleware._parse_time_window`: converts a window description
to seconds (`"second" in window → 1`, `"minute" → 60`, `"hour" → 3600`,
`"day" → 86400`, default 60). -/
def parseTimeWindow (window : String) : Int :=
  if containsSub window "second" then 1
  else if containsSub window "minute" then 60
  else if containsSub window "hour" then 3600
  else if containsSub window "day" then 86400
  else 60

/-- Result dictionary returned by `_check_rate_limit`:
`{"allowed": ..., "retry_after": ...}` (`retry_after` present only on
rejection). -/
structure RateLimitResult where
  allowed : Bool
  retry_after : Option Int
  deriving Repr, DecidableEq

/-- The purge step of `_check_rate_limit` (lines 161-164): keep only the
timestamps `req_time` with `req_time > cutoff_time`. -/
def purgeWindow (cutoff : Int) (w : List Int) : List Int :=
  w.filter (fun t => cutoff < t)

/-- `RateLimitMiddleware._check_rate_limit` for one key, lines 142-180 of
`rate_limit_middleware.py`.  Input `w` is the stored timestamp list for the
key (`self.request_counts[rate_limit_key]`); the result pairs the returned
dictionary with the timestamp list left in the store.  `none` models the
`ValueError` Python's `min([])` would raise (reachable only with `quota = 0`
and an empty purged window). -/
def checkRateLimit (quota : Nat) (windowSeconds now : Int) (w : List Int) :
    Option (RateLimitResult × List Int) :=
  let cutoff := now - windowSeconds
  let kept := purgeWindow cutoff w
  if quota ≤ kept.length then
    match kept.min? with
    | none => none
    | some oldest =>
      some (⟨false, some (max (oldest + windowSeconds - now) 1)⟩, kept)
  else
    some (⟨true, none⟩, kept ++ [now])

/-! ## Endpoint classification — `RateLimitMiddleware._get_endpoint_config` -/

/-- Python's `path.startswith(pre)`, on the character lists of the two
strings. -/
def pyStartsWith (s p : String) : Bool :=
  p.data.isPrefixOf s.data

/-- One entry of the `endpoint_configs` dictionary. -/
structure EndpointConfig where
  requests : Nat
  window : String
  deriving Repr, DecidableEq

/-- The `endpoint_configs` dictionary of `_get_endpoint_config`
(lines 126-132), in Python dict insertion order. -/
def endpointConfigs : List (String × EndpointConfig) :=
  [("/chat/", ⟨10, "1 minute"⟩),
   ("/chat/stream", ⟨5, "1 minute"⟩),
   ("/chat/batch", ⟨2, "1 minute"⟩),
   ("/auth/login", ⟨5, "1 minute"⟩),
   ("/upload/", ⟨5, "1 minute"⟩)]

/-- `RateLimitMiddleware._get_endpoint_config` (lines 121-140): iterate the
dictionary in insertion order and return the configuration of the first
entry whose key is a prefix of `path`; default `{"requests": 100,
"window": "1 minute"}`. -/
def getEndpointConfig (path : String) : EndpointConfig :=
  match endpointConfigs.find? (fun p => pyStartsWith path p.1) with
  | some p => p.2
  | none => ⟨100, "1 minute"⟩

/-! ## Response cache — `RedisCache` in `cache.py` -/

/-- `CacheConfig` in `cache.py` (constructor defaults: `default_ttl = 3600`,
`max_ttl = 86400`, `min_ttl = 60`, `cache_enabled = True`,
`cache_prefix = "chat_cache"`). -/
structure CacheConfig where
  default_ttl : Int
  max_ttl : Int
  min_ttl : Int
  cache_enabled : Bool
  cache_prefix : String

/-- The characters removed by Python's `str.strip()` with no argument
(the ASCII whitespace characters: space, tab, newline, carriage return,
vertical tab, form feed). -/
def isPySpace (c : Char) : Bool :=
  decide (c.toNat = 32 ∨ c.toNat = 9 ∨ c.toNat = 10 ∨ c.toNat = 13 ∨
          c.toNat = 11 ∨ c.toNat = 12)

/-- Python's `str.strip()` on a character list: drop leading and trailing
whitespace. -/
def stripList (l : List Char) : List Char :=
  ((l.dropWhile isPySpace).reverse.dropWhile isPySpace).reverse

/-- Python's `s.strip()`. -/
def pyStrip (s : String) : String :=
  ⟨stripList s.data⟩

/-- Python's `s.lower()` (basic-latin case folding, as in the queries the
cache handles). -/
def pyLower (s : String) : String :=
  ⟨s.data.map Char.toLower⟩

/-- `RedisCache._generate_cache_key` (lines 70-88 of `cache.py`):
`f"{prefix}:{tenant_id}:{agent_id}:{hash16}"` where `hash16` is the first 16
characters of the hex digest of the normalized query
`query.lower().strip()`.  The SHA-256 hex digest itself is an opaque pure
function of its input and is passed in as the parameter `digest`. -/
def generateCacheKey (digest : String → String) (cfg : CacheConfig)
    (tenant_id agent_id query : String) : String :=
  cfg.cache_prefix ++ ":" ++ tenant_id ++ ":" ++ agent_id ++ ":" ++
    (digest (pyStrip (pyLower query))).take 16

/-- Outcome of the Redis `setex` call (and of serialization): either the
write lands or some exception is raised. -/
inductive StoreResult where
  | ok
  | failure (msg : String)

/-- The TTL validation step of `RedisCache.set_cached_response`
(lines 155-161 of `cache.py`): `None` becomes `default_ttl`, a value above
`max_ttl` becomes `max_ttl`, a value below `min_ttl` becomes `min_ttl`. -/
def effectiveTTL (cfg : CacheConfig) (ttl : Option Int) : Int :=
  match ttl with
  | none => cfg.default_ttl
  | some t =>
    if cfg.max_ttl < t then cfg.max_ttl
    else if t < cfg.min_ttl then cfg.min_ttl
    else t

/-- `RedisCache.set_cached_response` (lines 130-184 of `cache.py`):
returns `false` when the cache is disabled or disconnected; otherwise clamps
the TTL, builds the key, and calls `setex`; any exception in the `try` body
(modelled by `StoreResult.failure`) is caught and turned into `false`. -/
def setCachedResponse (digest : String → String) (cfg : CacheConfig)
    (connected : Bool) (setex : String → Int → StoreResult)
    (tenant_id agent_id query : String) (ttl : Option Int) : Bool :=
  if !cfg.cache_enabled || !connected then false
  else
    match setex (generateCacheKey digest cfg tenant_id agent_id query)
        (effectiveTTL cfg ttl) with
    | .ok => true
    | .failure _ => false

/-! ## Event bus — `EventSystem` in `events.py` -/

/-- The `value`s of the `EventType` members of `EventSystem._critical_events`
(lines 42-53 of `events.py`). -/
def criticalEventValues : List String :=
  ["chat_message", "user_login", "user_logout", "agent_created",
   "agent_updated", "agent_deleted", "tenant_created", "tenant_updated",
   "error_occurred", "rate_limit_exceeded"]

/-- `EventSystem.should_persist_event` (lines 190-200):
`event_type in [e.value for e in self._critical_events]`. -/
def shouldPersistEvent (event_type : String) : Bool :=
  criticalEventValues.contains event_type

/-- A row of the durable `events` table as written by
`EventSystem.persist_event` (lines 126-134): the new row always carries
`processed = False` and `retry_count = 0`. -/
structure PersistedEvent where
  event_type : String
  processed : Bool
  retry_count : Nat
  deriving Repr, DecidableEq

/-- An event payload: the string-valued fields of the `data` dict. -/
abbrev Payload := List (String × String)

/-- An in-process listener: an identifier plus its behaviour on a payload —
it either returns or raises the given exception message. -/
structure Listener where
  id : Nat
  run : Payload → Except String Unit

/-- `true` iff calling the listener on `d` does not raise. -/
def listenerOk (l : Listener) (d : Payload) : Bool :=
  match l.run d with
  | .ok _ => true
  | .error _ => false

/-- Observable state threaded through `emit`: the durable `events` table and
the trace of listener invocations (each called listener's `id`, in call
order). -/
structure EvState where
  db : List PersistedEvent
  executed : List Nat

mutual

/-- `EventSystem.emit` (lines 73-115 of `events.py`), with the
`self.listeners` dict passed in as the environment `env`.  It decides
persistence (`persist` override if given, else membership of the critical
set), persists a `processed = False, retry_count = 0` row if so, then runs
every registered listener through `_safe_listener_call`.  The webhook
fan-out task touches neither the `events` table nor the listeners and is
modelled separately (`processEventWebhooks`).  `fuel` bounds the depth of
the `emit_error` recursion; the branches the claims speak about need depth
at most two. -/
def emitModel (env : String → List Listener) :
    Nat → String → Payload → Option Bool → EvState → EvState
  | 0, _, _, _, s => s
  | fuel + 1, event_type, data, persist, s =>
    let should := persist.getD (shouldPersistEvent event_type)
    let s1 := if should then
        { s with db := s.db ++ [⟨event_type, false, 0⟩] } else s
    runListeners env fuel (env event_type) data s1
termination_by fuel _ _ _ _ => (fuel, 0)

/-- `EventSystem.process_listeners` plus `_safe_listener_call` (lines
148-188 of `events.py`): every registered listener is invoked; an exception
in one is caught and converted into `emit_error`, i.e. a recursive `emit` of
an `error_occurred` event with `persist=True` (lines 202-218), and the
remaining listeners still run. -/
def runListeners (env : String → List Listener) :
    Nat → List Listener → Payload → EvState → EvState
  | _, [], _, s => s
  | fuel, l :: ls, data, s =>
    let s1 := { s with executed := s.executed ++ [l.id] }
    let s2 :=
      match l.run data with
      | .ok _ => s1
      | .error e =>
        emitModel env fuel "error_occurred" [("error", e)] (some true) s1
    runListeners env fuel ls data s2
termination_by fuel ls _ _ => (fuel, ls.length + 1)

end

/-- Number of persisted `error_occurred` rows in an `events` table. -/
def errCount (db : List PersistedEvent) : Nat :=
  (db.filter (fun r => r.event_type == "error_occurred")).length

/-- Number of listeners of `ls` that raise on payload `data`. -/
def countFailures (ls : List Listener) (data : Payload) : Nat :=
  (ls.filter (fun l => !listenerOk l data)).length

/-- `emit` only ever appends to the table and to the invocation trace
(statement at a given fuel, for the induction below). -/
def EmitFrameP (env : String → List Listener) (fuel : Nat) : Prop :=
  ∀ et data persist s, ∃ dbe exe,
    (emitModel env fuel et data persist s).db = s.db ++ dbe ∧
    (emitModel env fuel et data persist s).executed = s.executed ++ exe

/-- Listener dispatch only ever appends to the table and to the trace. -/
def RunFrameP (env : String → List Listener) (fuel : Nat) : Prop :=
  ∀ ls data s, ∃ dbe exe,
    (runListeners env fuel ls data s).db = s.db ++ dbe ∧
    (runListeners env fuel ls data s).executed = s.executed ++ exe

/-- `emit` adds no table row of event type `x` when `x` is not
`error_occurred` and, if `x` is the emitted type itself, the persistence
decision is negative. -/
def EmitKeepP (env : String → List Listener) (fuel : Nat) : Prop :=
  ∀ et data persist s x, x ≠ "error_occurred" →
    (x = et → persist.getD (shouldPersistEvent et) = false) →
    ((emitModel env fuel et data persist s).db.filter
        (fun r => r.event_type == x)) =
      s.db.filter (fun r => r.event_type == x)

/-- Listener dispatch adds no table row of a type other than
`error_occurred`. -/
def RunKeepP (env : String → List Listener) (fuel : Nat) : Prop :=
  ∀ ls data s x, x ≠ "error_occurred" →
    ((runListeners env fuel ls data s).db.filter
        (fun r => r.event_type == x)) =
      s.db.filter (fun r => r.event_type == x)

/-- A concrete listener registry for exercising the model: `boom_event` has
one raising and one succeeding listener, nothing else is registered. -/
def demoEnv : String → List Listener :=
  fun et =>
    if et = "boom_event" then
      [⟨1, fun _ => Except.error "boom"⟩, ⟨2, fun _ => Except.ok ()⟩]
    else []

/-! ## Webhook dispatcher — `WebhookSystem` in `webhooks.py` -/

/-- A row of the `webhooks` table (a subscription). -/
structure WebhookSub where
  id : Nat
  tenant_id : String
  event_type : String
  url : String
  is_active : Bool
  deriving Repr, DecidableEq

/-- Outcome of one HTTP POST: a status code, or a raised exception
(timeout, connection error, ...). -/
inductive HttpOutcome where
  | status (code : Nat)
  | netError (msg : String)

/-- The success set of `send_webhook`: `response.status_code in
[200, 201, 202]` (line 139 of `webhooks.py`). -/
def isSuccessStatus (c : Nat) : Bool :=
  c == 200 || c == 201 || c == 202

/-- The recorded result of one delivery as a function of the HTTP outcome
at the URL alone: success iff the POST returned 200/201/202, and a raised
exception is caught and recorded as failure. -/
def deliverOutcome (o : HttpOutcome) : Bool :=
  match o with
  | .status c => isSuccessStatus c
  | .netError _ => false

/-- `WebhookSystem.send_webhook` (lines 99-148 of `webhooks.py`) with the
network as a map from URL to outcome: exactly one POST to the URL (the
returned trace), success iff 200/201/202, exceptions caught and returned as
`false`.  The envelope/signature construction affects neither the trace nor
the result and is not modelled. -/
def sendWebhook (http : String → HttpOutcome) (url : String) :
    Bool × List String :=
  match http url with
  | .status c => (isSuccessStatus c, [url])
  | .netError _ => (false, [url])

/-- `WebhookSystem.get_webhooks` (lines 78-97): the active subscriptions of
the tenant for the event type. -/
def getWebhooks (table : List WebhookSub) (tenant_id event_type : String) :
    List WebhookSub :=
  table.filter (fun w =>
    w.tenant_id == tenant_id && w.event_type == event_type && w.is_active)

/-- Python `event_data.get(key)` on the modelled payload. -/
def lookupPayload (data : Payload) (key : String) : Option String :=
  match data.find? (fun p => p.1 == key) with
  | some p => some p.2
  | none => none

/-- Trace of one `process_event_webhooks` call: the subscription-table
queries made, the URLs POSTed to (one entry per attempt, in order), and the
per-subscription success flags. -/
structure WebhookDispatchTrace where
  lookups : List (String × String)
  calls : List String
  results : List Bool
  deriving Repr, DecidableEq

/-- `WebhookSystem.process_event_webhooks` (lines 150-184 of `webhooks.py`):
if the payload's `tenant_id` is missing or empty (Python falsy test
`if not tenant_id`) it returns at once — no table query, no delivery;
otherwise it queries the active subscriptions and delivers to each one. -/
def processEventWebhooks (http : String → HttpOutcome)
    (table : List WebhookSub) (event_type : String) (data : Payload) :
    WebhookDispatchTrace :=
  match lookupPayload data "tenant_id" with
  | none => ⟨[], [], []⟩
  | some tid =>
    if tid = "" then ⟨[], [], []⟩
    else
      let ws := getWebhooks table tid event_type
      let sends := ws.map (fun w => sendWebhook http w.url)
      ⟨[(tid, event_type)], (sends.map (fun p => p.2)).flatten,
        sends.map (fun p => p.1)⟩

/-- A concrete subscription table: tenant `t1` has two active subscriptions
for event `ev`. -/
def demoTable : List WebhookSub :=
  [⟨1, "t1", "ev", "url-a", true⟩, ⟨2, "t1", "ev", "url-b", true⟩]

/-- A concrete network: `url-a` times out, everything else returns 200. -/
def demoHttp : String → HttpOutcome :=
  fun u => if u = "url-a" then .netError "timeout" else .status 200

/-! ## Event reprocessing — `EventSystem.reprocess_failed_events` -/

/-- A row of the `events` table as read back by the reprocessing sweep. -/
structure EventRec where
  id : Nat
  event_type : String
  processed : Bool
  retry_count : Nat
  error_message : Option String
  deriving Repr, DecidableEq

/-- The selection query of `reprocess_failed_events` (line 254 of
`events.py`): `processed = False and retry_count <= max_retries`
(note `lte`). -/
def selectFailed (max_retries : Nat) (db : List EventRec) : List EventRec :=
  db.filter (fun e => !e.processed && decide (e.retry_count ≤ max_retries))

/-- One `update(...).eq("id", i)` call against the table. -/
def updateById (i : Nat) (f : EventRec → EventRec) (db : List EventRec) :
    List EventRec :=
  db.map (fun r => if r.id = i then f r else r)

/-- `EventSystem.reprocess_failed_events` (lines 245-280 of `events.py`).
The outcome of re-dispatching one selected event (`process_listeners` on
`event["data"]`, which can raise, e.g. on a malformed `data` dict) is
abstracted as `attempt`.  For each selected event, success marks the row
`processed = True`; failure sets `retry_count` to the selected snapshot's
count plus one and records the error message. -/
def reprocessStep (attempt : EventRec → Except String Unit)
    (acc : List EventRec) (e : EventRec) : List EventRec :=
  match attempt e with
  | .ok _ => updateById e.id (fun r => { r with processed := true }) acc
  | .error m => updateById e.id
      (fun r => { r with retry_count := e.retry_count + 1,
                         error_message := some m }) acc

/-- The loop of `reprocess_failed_events`: fold the per-event update over
the selected snapshot, starting from the current table. -/
def reprocessFailedEvents (attempt : EventRec → Except String Unit)
    (max_retries : Nat) (db : List EventRec) : List EventRec :=
  (selectFailed max_retries db).foldl (reprocessStep attempt) db

/-- The row of the table with the given id (`select ... eq("id", i)`). -/
def findById (db : List EventRec) (i : Nat) : Option EventRec :=
  db.find? (fun r => r.id == i)

/-- A concrete events table for the reprocessing sweep: row 1 will fail
again, row 2 is over the retry limit, row 3 is already processed, row 4
will succeed. -/
def demoEvents : List EventRec :=
  [⟨1, "a", false, 0, none⟩, ⟨2, "b", false, 5, none⟩,
   ⟨3, "c", true, 0, none⟩, ⟨4, "d", false, 1, none⟩]

/-- A concrete redispatch outcome: event 1 raises, everything else
succeeds. -/
def demoAttempt : EventRec → Except String Unit :=
  fun e => if e.id = 1 then Except.error "boom" else Except.ok ()

/-! ## Chat endpoint — `send_chat_message` in `routers/chat.py` -/

/-- A raised Python exception, by class: FastAPI's `HTTPException` (with
status and detail) or a built-in `TypeError`.  Both subclass `Exception`. -/
inductive PyExc where
  | httpExc (status : Nat) (detail : String)
  | typeError (msg : String)
  deriving Repr, DecidableEq

/-- The call `get_cached_response(cache_key)` at line 45 of `chat.py`.  The
imported function (`cache.py` line 467) has three required positional
parameters `(tenant_id, agent_id, query)`, so this one-argument call raises
`TypeError` before touching the cache, on every invocation. -/
def getCachedResponseOneArg (cache_key : String) :
    Except PyExc (Option String) :=
  Except.error (PyExc.typeError
    "get_cached_response() missing 2 required positional arguments")

/-- The `try` body of `send_chat_message` (lines 37-91 of `chat.py`),
abstracted over its collaborators: `user` is `get_current_user()` (`None`
when unauthenticated) and `agent` the `get_agent_by_id` result.  The body
raises 401 for a missing user, then performs the line-45 cache lookup —
which always raises `TypeError` (`getCachedResponseOneArg`) — so the
cache-hit return, the 404 raise for an unknown agent and the 200 success
path that follow it in the source are unreachable for every input. -/
def chatBody (user agent : Option String) : Except PyExc Nat :=
  match user with
  | none => Except.error (PyExc.httpExc 401 "Usuário não autenticado")
  | some u =>
    match getCachedResponseOneArg ("ai_response:" ++ u) with
    | Except.error e => Except.error e
    | Except.ok (some _) => Except.ok 200
    | Except.ok none =>
      match agent with
      | none => Except.error (PyExc.httpExc 404 "Agente não encontrado")
      | some _ => Except.ok 200

/-- `send_chat_message` (lines 26-95 of `chat.py`): the whole `try` body is
wrapped in `except Exception as e: raise HTTPException(500, ...)`.  Both
`HTTPException` and `TypeError` subclass `Exception`, so the 401 raised for
a missing user and the `TypeError` raised by the line-45 cache call are
caught here and re-raised as 500. -/
def sendChatMessage (user agent : Option String) : Nat :=
  match chatBody user agent with
  | Except.ok s => s
  | Except.error _ => 500

end NGabi

namespace NGabi

/-- Claim C1: a rate-limit check first purges the timestamps older than
`now - window_seconds`; if at least `quota` timestamps remain the request is
rejected with `retry_after = max 1 (oldest + window_seconds - now)` and the
stored window is exactly the purged list (no new timestamp); otherwise the
current time is appended and the request is admitted. -/
theorem c1_check_rate_limit (quota : Nat) (ws now : Int) (w : List Int)
    (hq : 0 < quota) :
    (quota ≤ (purgeWindow (now - ws) w).length →
      ∃ oldest, (purgeWindow (now - ws) w).min? = some oldest ∧
        checkRateLimit quota ws now w =
          some (⟨false, some (max (oldest + ws - now) 1)⟩,
                purgeWindow (now - ws) w)) ∧
    ((purgeWindow (now - ws) w).length < quota →
      checkRateLimit quota ws now w =
        some (⟨true, none⟩, purgeWindow (now - ws) w ++ [now])) := by
  constructor
  · intro hlen
    have hne : purgeWindow (now - ws) w ≠ [] := by
      intro h
      rw [h] at hlen
      simp at hlen
      omega
    cases hmin : (purgeWindow (now - ws) w).min? with
    | none =>
      exact absurd (List.min?_eq_none_iff.mp hmin) hne
    | some oldest =>
      refine ⟨oldest, rfl, ?_⟩
      unfold checkRateLimit
      simp only [if_pos hlen, hmin]
  · intro hlen
    unfold checkRateLimit
    simp only [if_neg (by omega : ¬ quota ≤ (purgeWindow (now - ws) w).length)]

/-- Witness for C1 at quota 10, window 60, a full window of 10 timestamps at
time 100: the 11th call is rejected with `retry_after = 2` and nothing is
recorded; with an almost-empty window the call is admitted. -/
theorem c1_check_rate_limit_witness :
    (0 < 10 ∧
      checkRateLimit 10 60 100 [42, 44, 46, 48, 50, 52, 54, 56, 58, 60] =
        some (⟨false, some 2⟩, [42, 44, 46, 48, 50, 52, 54, 56, 58, 60])) ∧
    checkRateLimit 10 60 100 [42] = some (⟨true, none⟩, [42, 100]) := by
  have h := c1_check_rate_limit 10 60 100
      [42, 44, 46, 48, 50, 52, 54, 56, 58, 60] (by decide)
  refine ⟨⟨by decide, ?_⟩, by decide⟩
  obtain ⟨oldest, h1, h2⟩ := h.1 (by decide)
  have ho : oldest = (42 : Int) := by
    have : (purgeWindow (100 - 60)
        [42, 44, 46, 48, 50, 52, 54, 56, 58, 60]).min? = some 42 := by decide
    rw [this] at h1
    exact (Option.some.injEq _ _ ▸ h1.symm)
  rw [ho] at h2
  simpa using h2

/-- Lowercasing never turns a whitespace character into a non-whitespace
character or vice versa: `toLower` only moves the basic-latin uppercase
range 65-90 to 97-122. -/
theorem isPySpace_toLower (c : Char) :
    isPySpace (Char.toLower c) = isPySpace c := by
  simp only [Char.toLower]
  by_cases h : c.toNat ≥ 65 ∧ c.toNat ≤ 90
  · rw [if_pos h]
    have hv : (c.toNat + 32).isValidChar := Or.inl (by omega)
    have ht : (Char.ofNat (c.toNat + 32)).toNat = c.toNat + 32 := by
      unfold Char.ofNat
      rw [dif_pos hv]
      rfl
    simp only [isPySpace, ht, decide_eq_decide]
    omega
  · rw [if_neg h]

/-- `strip` commutes with character-wise `lower` on character lists. -/
theorem stripList_map_toLower (l : List Char) :
    stripList (l.map Char.toLower) = (stripList l).map Char.toLower := by
  have hcomp : (isPySpace ∘ Char.toLower) = isPySpace :=
    funext isPySpace_toLower
  unfold stripList
  rw [List.dropWhile_map, hcomp, ← List.map_reverse, List.dropWhile_map,
    hcomp, ← List.map_reverse]

/-- Python's `q.lower().strip()` equals `q.strip().lower()`. -/
theorem pyStrip_pyLower_comm (q : String) :
    pyStrip (pyLower q) = pyLower (pyStrip q) := by
  simp only [pyStrip, pyLower]
  exact congrArg String.mk (stripList_map_toLower q.data)

/-- Claim C2 (code evaluation at the failing input): `_get_endpoint_config`
scans the dictionary in insertion order, so the path `"/chat/stream"`
matches the `"/chat/"` entry first and receives the 10-per-minute
configuration, not the 5-per-minute one that the longest-prefix rule (and
the code's own "most specific" comment) would select. -/
theorem c2_chat_stream_gets_chat_send_config :
    getEndpointConfig "/chat/stream" = ⟨10, "1 minute"⟩ ∧
    (getEndpointConfig "/chat/stream").requests ≠ 5 := by
  constructor <;> decide

/-- With no fuel, `emit` is the identity on the state. -/
theorem emitFrame_zero (env : String → List Listener) : EmitFrameP env 0 := by
  intro et data persist s
  exact ⟨[], [], by simp [emitModel], by simp [emitModel]⟩

/-- Dispatch preserves the frame property at equal fuel. -/
theorem runFrame_of_emitFrame (env : String → List Listener) (fuel : Nat)
    (h : EmitFrameP env fuel) : RunFrameP env fuel := by
  intro ls data
  induction ls with
  | nil =>
    intro s
    exact ⟨[], [], by simp [runListeners], by simp [runListeners]⟩
  | cons hd tl ih =>
    intro s
    cases hr : hd.run data with
    | ok u =>
      obtain ⟨dbe, exe, h1, h2⟩ := ih { s with executed := s.executed ++ [hd.id] }
      refine ⟨dbe, [hd.id] ++ exe, ?_, ?_⟩
      · simp only [runListeners, hr]
        simpa using h1
      · simp only [runListeners, hr]
        simpa [List.append_assoc] using h2
    | error e =>
      obtain ⟨dbe1, exe1, he1, he2⟩ := h "error_occurred" [("error", e)]
        (some true) { s with executed := s.executed ++ [hd.id] }
      obtain ⟨dbe2, exe2, h1, h2⟩ := ih
        (emitModel env fuel "error_occurred" [("error", e)] (some true)
          { s with executed := s.executed ++ [hd.id] })
      refine ⟨dbe1 ++ dbe2, [hd.id] ++ exe1 ++ exe2, ?_, ?_⟩
      · simp only [runListeners, hr]
        rw [h1, he1]
        simp [List.append_assoc]
      · simp only [runListeners, hr]
        rw [h2, he2]
        simp [List.append_assoc]

/-- The frame property at one more fuel. -/
theorem emitFrame_succ (env : String → List Listener) (fuel : Nat)
    (h : RunFrameP env fuel) : EmitFrameP env (fuel + 1) := by
  intro et data persist s
  by_cases hs : persist.getD (shouldPersistEvent et) = true
  · obtain ⟨dbe, exe, h1, h2⟩ := h (env et) data
      { s with db := s.db ++ [⟨et, false, 0⟩] }
    refine ⟨[⟨et, false, 0⟩] ++ dbe, exe, ?_, ?_⟩
    · simp only [emitModel, hs, if_true]
      rw [h1]
      simp [List.append_assoc]
    · simp only [emitModel, hs, if_true]
      rw [h2]
  · obtain ⟨dbe, exe, h1, h2⟩ := h (env et) data s
    refine ⟨dbe, exe, ?_, ?_⟩
    · simp only [emitModel, hs]
      rw [if_neg Bool.false_ne_true, h1]
    · simp only [emitModel, hs]
      rw [if_neg Bool.false_ne_true, h2]

/-- `emit` and listener dispatch only append to the table and the trace. -/
theorem frame_all (env : String → List Listener) (fuel : Nat) :
    EmitFrameP env fuel ∧ RunFrameP env fuel := by
  induction fuel with
  | zero =>
    exact ⟨emitFrame_zero env, runFrame_of_emitFrame env 0 (emitFrame_zero env)⟩
  | succ f ih =>
    have hP := emitFrame_succ env f ih.2
    exact ⟨hP, runFrame_of_emitFrame env (f + 1) hP⟩

/-- Every listener in the dispatched list gets invoked (its `id` lands in
the trace), whatever the other listeners do. -/
theorem runListeners_executes (env : String → List Listener) (fuel : Nat)
    (ls : List Listener) (data : Payload) :
    ∀ s, ∀ l ∈ ls, l.id ∈ (runListeners env fuel ls data s).executed := by
  induction ls with
  | nil =>
    intro s l hl
    exact absurd hl (List.not_mem_nil l)
  | cons hd tl ih =>
    intro s l hl
    have hstep : ∀ s2 : EvState, (∃ pre, s2.executed = s.executed ++ [hd.id] ++ pre) →
        l.id ∈ (runListeners env fuel tl data s2).executed := by
      intro s2 hpre
      obtain ⟨pre, hpre⟩ := hpre
      rcases List.mem_cons.mp hl with hH | hT
      · obtain ⟨dbe, exe, _, h2⟩ :=
          (frame_all env fuel).2 tl data s2
        rw [h2, hpre]
        subst hH
        simp
      · exact ih s2 l hT
    cases hr : hd.run data with
    | ok u =>
      simp only [runListeners, hr]
      exact hstep _ ⟨[], by simp⟩
    | error e =>
      simp only [runListeners, hr]
      obtain ⟨dbe1, exe1, _, he2⟩ := (frame_all env fuel).1 "error_occurred"
        [("error", e)] (some true) { s with executed := s.executed ++ [hd.id] }
      exact hstep _ ⟨exe1, he2⟩

/-- With no fuel, `emit` adds nothing. -/
theorem emitKeep_zero (env : String → List Listener) : EmitKeepP env 0 := by
  intro et data persist s x _ _
  simp [emitModel]

/-- Dispatch adds no row of a type other than `error_occurred`
(at equal fuel). -/
theorem runKeep_of_emitKeep (env : String → List Listener) (fuel : Nat)
    (h : EmitKeepP env fuel) : RunKeepP env fuel := by
  intro ls data
  induction ls with
  | nil =>
    intro s x _
    simp [runListeners]
  | cons hd tl ih =>
    intro s x hx
    cases hr : hd.run data with
    | ok u =>
      simp only [runListeners, hr]
      exact ih _ x hx
    | error e =>
      simp only [runListeners, hr]
      rw [ih _ x hx]
      exact h "error_occurred" [("error", e)] (some true)
        { s with executed := s.executed ++ [hd.id] } x hx
        (fun hxe => absurd hxe hx)

/-- One more fuel step of the keep-property. -/
theorem emitKeep_succ (env : String → List Listener) (fuel : Nat)
    (h : RunKeepP env fuel) : EmitKeepP env (fuel + 1) := by
  intro et data persist s x hx himp
  by_cases hs : persist.getD (shouldPersistEvent et) = true
  · have hne : x ≠ et := by
      intro hxe
      rw [himp hxe] at hs
      exact Bool.false_ne_true hs
    simp only [emitModel, hs, if_true]
    rw [h (env et) data _ x hx]
    have hb : (et == x) = false :=
      beq_eq_false_iff_ne.mpr (fun hh => hne hh.symm)
    simp [List.filter_append, List.filter_cons, hb]
  · simp only [emitModel, hs]
    rw [if_neg Bool.false_ne_true]
    exact h (env et) data s x hx

/-- Joint keep-property at every fuel. -/
theorem keep_all (env : String → List Listener) (fuel : Nat) :
    EmitKeepP env fuel ∧ RunKeepP env fuel := by
  induction fuel with
  | zero =>
    exact ⟨emitKeep_zero env, runKeep_of_emitKeep env 0 (emitKeep_zero env)⟩
  | succ f ih =>
    have hP := emitKeep_succ env f ih.2
    exact ⟨hP, runKeep_of_emitKeep env (f + 1) hP⟩

/-- If no listener in the dispatched list raises, the table is left
untouched by the dispatch. -/
theorem runListeners_allOk_db (env : String → List Listener) (fuel : Nat)
    (ls : List Listener) (data : Payload) :
    ∀ s, (∀ l ∈ ls, listenerOk l data = true) →
      (runListeners env fuel ls data s).db = s.db := by
  induction ls with
  | nil =>
    intro s _
    simp [runListeners]
  | cons hd tl ih =>
    intro s hok
    cases hr : hd.run data with
    | ok u =>
      simp only [runListeners, hr]
      exact ih _ (fun l hl => hok l (List.mem_cons_of_mem hd hl))
    | error e =>
      have := hok hd (List.mem_cons_self hd tl)
      rw [listenerOk, hr] at this
      exact absurd this Bool.false_ne_true

/-- Each raising listener in a dispatched list contributes exactly one
persisted `error_occurred` row, provided the listeners registered for
`error_occurred` themselves never raise (true of the repository's default
`log_error_event`). -/
theorem runListeners_errCount (env : String → List Listener)
    (hErr : ∀ l ∈ env "error_occurred", ∀ d, listenerOk l d = true)
    (F : Nat) (ls : List Listener) (data : Payload) :
    ∀ s, errCount (runListeners env (F + 1) ls data s).db =
      errCount s.db + countFailures ls data := by
  induction ls with
  | nil =>
    intro s
    simp [runListeners, countFailures]
  | cons hd tl ih =>
    intro s
    cases hr : hd.run data with
    | ok u =>
      have hokhd : listenerOk hd data = true := by rw [listenerOk, hr]
      have hcf : countFailures (hd :: tl) data = countFailures tl data := by
        simp [countFailures, List.filter_cons, hokhd]
      simp only [runListeners, hr]
      rw [ih _, hcf]
    | error e =>
      have hbadhd : listenerOk hd data = false := by rw [listenerOk, hr]
      have hcf : countFailures (hd :: tl) data = countFailures tl data + 1 := by
        simp [countFailures, List.filter_cons, hbadhd]
      simp only [runListeners, hr]
      rw [ih _]
      have hemit : (emitModel env (F + 1) "error_occurred" [("error", e)]
          (some true) { s with executed := s.executed ++ [hd.id] }).db =
          s.db ++ [⟨"error_occurred", false, 0⟩] := by
        simp only [emitModel, Option.getD_some, if_true]
        rw [runListeners_allOk_db env F (env "error_occurred") _ _
          (fun l hl => hErr l hl _)]
      rw [hemit, hcf]
      have : errCount (s.db ++ [⟨"error_occurred", false, 0⟩]) =
          errCount s.db + 1 := by
        simp [errCount, List.filter_append, List.filter_cons]
      rw [this]
      omega

/-- Claim C5: the TTL actually handed to the store always lies in
`[min_ttl, max_ttl]` (assuming the configured default itself does, as the
shipped configuration's `3600 ∈ [60, 86400]` does): a missing TTL becomes
`default_ttl`, a TTL above `max_ttl` becomes `max_ttl`, one below `min_ttl`
becomes `min_ttl`; and a storage failure makes `set_cached_response` return
`false` rather than raise. -/
theorem c5_put_ttl_clamped (cfg : CacheConfig)
    (h1 : cfg.min_ttl ≤ cfg.default_ttl) (h2 : cfg.default_ttl ≤ cfg.max_ttl) :
    (∀ ttl, cfg.min_ttl ≤ effectiveTTL cfg ttl ∧
            effectiveTTL cfg ttl ≤ cfg.max_ttl) ∧
    effectiveTTL cfg none = cfg.default_ttl ∧
    (∀ t, cfg.max_ttl < t → effectiveTTL cfg (some t) = cfg.max_ttl) ∧
    (∀ t, t < cfg.min_ttl → effectiveTTL cfg (some t) = cfg.min_ttl) ∧
    (∀ digest connected setex tenant agent query ttl msg,
      setex (generateCacheKey digest cfg tenant agent query)
          (effectiveTTL cfg ttl) = StoreResult.failure msg →
      setCachedResponse digest cfg connected setex tenant agent query ttl
        = false) := by
  refine ⟨?_, rfl, ?_, ?_, ?_⟩
  · intro ttl
    cases ttl with
    | none => exact ⟨h1, h2⟩
    | some t =>
      simp only [effectiveTTL]
      split_ifs <;> omega
  · intro t ht
    simp only [effectiveTTL, if_pos ht]
  · intro t ht
    have hnot : ¬ cfg.max_ttl < t := by omega
    simp only [effectiveTTL, if_neg hnot, if_pos ht]
  · intro digest connected setex tenant agent query ttl msg hfail
    unfold setCachedResponse
    split_ifs with hdis
    · rfl
    · rw [hfail]

/-- Witness for C5 with the shipped configuration
`⟨3600, 86400, 60, true, "chat_cache"⟩`: `ttl = 999999` is clamped to 86400,
`ttl = 1` is clamped to 60, a missing TTL yields 3600, and a failing store
makes the write return `false`. -/
theorem c5_put_ttl_clamped_witness :
    ((60 : Int) ≤ 3600 ∧ (3600 : Int) ≤ 86400) ∧
    effectiveTTL ⟨3600, 86400, 60, true, "chat_cache"⟩ (some 999999) = 86400 ∧
    effectiveTTL ⟨3600, 86400, 60, true, "chat_cache"⟩ (some 1) = 60 ∧
    effectiveTTL ⟨3600, 86400, 60, true, "chat_cache"⟩ none = 3600 ∧
    setCachedResponse (fun s => s) ⟨3600, 86400, 60, true, "chat_cache"⟩ true
      (fun _ _ => StoreResult.failure "redis down") "t1" "a1" "hi" (some 5)
      = false := by
  have h := c5_put_ttl_clamped ⟨3600, 86400, 60, true, "chat_cache"⟩
      (by decide) (by decide)
  refine ⟨⟨by decide, by decide⟩, ?_, ?_, h.2.1, ?_⟩
  · exact h.2.2.1 999999 (by decide)
  · exact h.2.2.2.1 1 (by decide)
  · exact h.2.2.2.2 (fun s => s) true
      (fun _ _ => StoreResult.failure "redis down") "t1" "a1" "hi" (some 5)
      "redis down" rfl

/-- Claim C6: for one tenant and agent, two queries that are equal after
trimming surrounding whitespace and lower-casing produce the same cache
key (for any digest function, i.e. in particular for SHA-256), the key
function is deterministic, and concretely `"Hello"` and `" hello "` agree. -/
theorem c6_fingerprint_normalized (digest : String → String)
    (cfg : CacheConfig) (t a q1 q2 : String)
    (h : pyLower (pyStrip q1) = pyLower (pyStrip q2)) :
    generateCacheKey digest cfg t a q1 = generateCacheKey digest cfg t a q2 ∧
    (∀ q q', q = q' →
      generateCacheKey digest cfg t a q = generateCacheKey digest cfg t a q')
    ∧
    generateCacheKey digest cfg t a "Hello" =
      generateCacheKey digest cfg t a " hello " := by
  refine ⟨?_, fun q q' hq => by rw [hq], ?_⟩
  · have hn : pyStrip (pyLower q1) = pyStrip (pyLower q2) := by
      rw [pyStrip_pyLower_comm, pyStrip_pyLower_comm, h]
    unfold generateCacheKey
    rw [hn]
  · have hn : pyStrip (pyLower "Hello") = pyStrip (pyLower " hello ") := by
      decide
    unfold generateCacheKey
    rw [hn]

/-- Claim C3: emitting an event whose type is in the critical set with no
persist override writes a `processed = false, retry_count = 0` row for it
at emission time (immediately after the prior table contents, before
anything listeners may add); a non-critical type with no override adds no
row of its own type; and any type is persisted when the `persist=True`
override is passed. -/
theorem c3_emit_persistence (env : String → List Listener) (fuel : Nat)
    (et : String) (data : Payload) (s : EvState) :
    (shouldPersistEvent et = true →
      ∃ rest, (emitModel env (fuel + 1) et data none s).db =
        s.db ++ [⟨et, false, 0⟩] ++ rest) ∧
    (shouldPersistEvent et = false →
      (emitModel env (fuel + 1) et data none s).db.filter
          (fun r => r.event_type == et) =
        s.db.filter (fun r => r.event_type == et)) ∧
    (∃ rest, (emitModel env (fuel + 1) et data (some true) s).db =
      s.db ++ [⟨et, false, 0⟩] ++ rest) := by
  refine ⟨?_, ?_, ?_⟩
  · intro hs
    have hg : (none : Option Bool).getD (shouldPersistEvent et) = true := by
      rw [Option.getD_none]
      exact hs
    obtain ⟨dbe, exe, h1, _⟩ := (frame_all env fuel).2 (env et) data
      { s with db := s.db ++ [⟨et, false, 0⟩] }
    refine ⟨dbe, ?_⟩
    simp only [emitModel, hg, if_true]
    rw [h1]
  · intro hs
    have hne : et ≠ "error_occurred" := by
      intro hh
      rw [hh] at hs
      exact absurd hs (by decide)
    exact (keep_all env (fuel + 1)).1 et data none s et hne
      (fun _ => by rw [Option.getD_none]; exact hs)
  · have hg : (some true).getD (shouldPersistEvent et) = true := rfl
    obtain ⟨dbe, exe, h1, _⟩ := (frame_all env fuel).2 (env et) data
      { s with db := s.db ++ [⟨et, false, 0⟩] }
    refine ⟨dbe, ?_⟩
    simp only [emitModel, hg, if_true]
    rw [h1]

/-- Witness for C3: `chat_message` is critical and gets its row on an empty
table; `cache_cleared` is not critical and adds no `cache_cleared` row
without an override. -/
theorem c3_emit_persistence_witness :
    (shouldPersistEvent "chat_message" = true ∧
     ∃ rest, (emitModel (fun _ => []) 1 "chat_message" [] none
         ⟨[], []⟩).db = [] ++ [⟨"chat_message", false, 0⟩] ++ rest) ∧
    (shouldPersistEvent "cache_cleared" = false ∧
     (emitModel (fun _ => []) 1 "cache_cleared" [] none ⟨[], []⟩).db.filter
         (fun r => r.event_type == "cache_cleared") =
       ([] : List PersistedEvent).filter
         (fun r => r.event_type == "cache_cleared")) :=
  ⟨⟨by decide,
    (c3_emit_persistence (fun _ => []) 0 "chat_message" [] ⟨[], []⟩).1
      (by decide)⟩,
   ⟨by decide,
    (c3_emit_persistence (fun _ => []) 0 "cache_cleared" [] ⟨[], []⟩).2.1
      (by decide)⟩⟩

/-- Claim C4: when an event is emitted, every listener registered for its
type is invoked even if some of them raise (the raising listener does not
stop its siblings, and `emitModel` is a total function, so nothing
propagates to the caller), and each raising listener produces exactly one
persisted `error_occurred` row — under the repository's standing condition
that the `error_occurred` listeners themselves do not raise. -/
theorem c4_listener_isolation (env : String → List Listener) (F : Nat)
    (et : String) (data : Payload) (persist : Option Bool) (s : EvState)
    (hne : et ≠ "error_occurred")
    (hErr : ∀ l ∈ env "error_occurred", ∀ d, listenerOk l d = true) :
    (∀ l ∈ env et,
      l.id ∈ (emitModel env (F + 2) et data persist s).executed) ∧
    errCount (emitModel env (F + 2) et data persist s).db =
      errCount s.db + countFailures (env et) data := by
  by_cases hs : persist.getD (shouldPersistEvent et) = true
  · constructor
    · intro l hl
      simp only [emitModel, hs, if_true]
      exact runListeners_executes env (F + 1) (env et) data _ l hl
    · simp only [emitModel, hs, if_true]
      rw [runListeners_errCount env hErr F (env et) data _]
      have hbeq : (et == "error_occurred") = false :=
        beq_eq_false_iff_ne.mpr hne
      simp [errCount, List.filter_append, List.filter_cons, hbeq]
  · constructor
    · intro l hl
      simp only [emitModel, hs]
      rw [if_neg Bool.false_ne_true]
      exact runListeners_executes env (F + 1) (env et) data s l hl
    · simp only [emitModel, hs]
      rw [if_neg Bool.false_ne_true,
        runListeners_errCount env hErr F (env et) data s]

/-- Witness for C4 on `demoEnv`: both listeners of `boom_event` run (ids 1
and 2 are in the trace) and exactly one `error_occurred` row is persisted
for the one raising listener. -/
theorem c4_listener_isolation_witness :
    (("boom_event" : String) ≠ "error_occurred" ∧
     (∀ l ∈ demoEnv "error_occurred", ∀ d, listenerOk l d = true)) ∧
    1 ∈ (emitModel demoEnv 2 "boom_event" [] none ⟨[], []⟩).executed ∧
    2 ∈ (emitModel demoEnv 2 "boom_event" [] none ⟨[], []⟩).executed ∧
    errCount (emitModel demoEnv 2 "boom_event" [] none ⟨[], []⟩).db = 1 := by
  have hne : ("boom_event" : String) ≠ "error_occurred" := by decide
  have hErr : ∀ l ∈ demoEnv "error_occurred", ∀ d, listenerOk l d = true := by
    intro l hl
    simp only [demoEnv] at hl
    rw [if_neg (by decide)] at hl
    exact absurd hl (List.not_mem_nil l)
  have h := c4_listener_isolation demoEnv 0 "boom_event" [] none ⟨[], []⟩
    hne hErr
  have hlist : demoEnv "boom_event" =
      [⟨1, fun _ => Except.error "boom"⟩, ⟨2, fun _ => Except.ok ()⟩] := by
    simp [demoEnv]
  refine ⟨⟨hne, hErr⟩, ?_, ?_, ?_⟩
  · exact h.1 ⟨1, fun _ => Except.error "boom"⟩
      (by rw [hlist]; exact List.mem_cons_self _ _)
  · exact h.1 ⟨2, fun _ => Except.ok ()⟩
      (by rw [hlist]; exact List.mem_cons_of_mem _ (List.mem_cons_self _ _))
  · rw [h.2, hlist]
    rfl

/-- Witness for C6 with the identity digest and the shipped configuration:
`"Hello"` and `" hello "` normalize identically and get the same key. -/
theorem c6_fingerprint_normalized_witness :
    pyLower (pyStrip "Hello") = pyLower (pyStrip " hello ") ∧
    generateCacheKey (fun s => s) ⟨3600, 86400, 60, true, "chat_cache"⟩
        "t1" "a1" "Hello" =
      generateCacheKey (fun s => s) ⟨3600, 86400, 60, true, "chat_cache"⟩
        "t1" "a1" " hello " := by
  refine ⟨by decide, ?_⟩
  exact (c6_fingerprint_normalized (fun s => s)
    ⟨3600, 86400, 60, true, "chat_cache"⟩ "t1" "a1" "Hello" " hello "
    (by decide)).1

/-- Flattening a list of singletons is mapping. -/
theorem flatten_map_singleton {α β : Type} (l : List α) (f : α → β) :
    (l.map (fun a => [f a])).flatten = l.map f := by
  induction l with
  | nil => rfl
  | cons a tl ih => simp [ih]

/-- Claim C7: with a non-empty tenant in the payload, every active
subscription of the tenant for the event type gets exactly one POST (the
call trace lists each URL once, so no retry happens inside the call), and
each subscription's recorded result is success exactly when the HTTP
outcome at its own URL is a 200/201/202 status — independent of the other
deliveries' outcomes. -/
theorem c7_webhook_delivery (http : String → HttpOutcome)
    (table : List WebhookSub) (event_type : String) (data : Payload)
    (tid : String) (h1 : lookupPayload data "tenant_id" = some tid)
    (h2 : tid ≠ "") :
    (processEventWebhooks http table event_type data).results =
      (getWebhooks table tid event_type).map
        (fun w => deliverOutcome (http w.url)) ∧
    (processEventWebhooks http table event_type data).calls =
      (getWebhooks table tid event_type).map (fun w => w.url) := by
  have hfun1 : ((fun p : Bool × List String => p.1) ∘
      (fun w : WebhookSub => sendWebhook http w.url)) =
      (fun w : WebhookSub => deliverOutcome (http w.url)) := by
    funext w
    show (sendWebhook http w.url).1 = deliverOutcome (http w.url)
    cases hu : http w.url <;> simp [sendWebhook, deliverOutcome, hu]
  have hfun2 : ((fun p : Bool × List String => p.2) ∘
      (fun w : WebhookSub => sendWebhook http w.url)) =
      (fun w : WebhookSub => [w.url]) := by
    funext w
    show (sendWebhook http w.url).2 = [w.url]
    cases hu : http w.url <;> simp [sendWebhook, hu]
  constructor
  · simp only [processEventWebhooks, h1]
    rw [if_neg h2]
    simp only [List.map_map, hfun1]
  · simp only [processEventWebhooks, h1]
    rw [if_neg h2]
    simp only [List.map_map, hfun2, flatten_map_singleton]

/-- Witness for C7: tenant `t1` has two subscriptions, `url-a` times out and
`url-b` answers 200; exactly one delivery is recorded successful and each
URL is POSTed exactly once. -/
theorem c7_webhook_delivery_witness :
    (lookupPayload [("tenant_id", "t1")] "tenant_id" = some "t1" ∧
     ("t1" : String) ≠ "") ∧
    (processEventWebhooks demoHttp demoTable "ev"
        [("tenant_id", "t1")]).results = [false, true] ∧
    (processEventWebhooks demoHttp demoTable "ev"
        [("tenant_id", "t1")]).calls = ["url-a", "url-b"] := by
  have h := c7_webhook_delivery demoHttp demoTable "ev" [("tenant_id", "t1")]
    "t1" (by decide) (by decide)
  refine ⟨⟨by decide, by decide⟩, ?_, ?_⟩
  · rw [h.1]
    rfl
  · rw [h.2]
    rfl

/-- On a table whose id column is duplicate-free, equal ids force equal
rows. -/
theorem id_inj_of_nodup :
    ∀ (db : List EventRec), (db.map (fun r => r.id)).Nodup →
      ∀ x ∈ db, ∀ y ∈ db, x.id = y.id → x = y := by
  intro db
  induction db with
  | nil =>
    intro _ x hx
    exact absurd hx (List.not_mem_nil x)
  | cons r tl ih =>
    intro hnd x hx y hy hxy
    rw [List.map_cons, List.nodup_cons] at hnd
    rcases List.mem_cons.mp hx with hx1 | hx1 <;>
      rcases List.mem_cons.mp hy with hy1 | hy1
    · rw [hx1, hy1]
    · exfalso
      subst hx1
      have hm : y.id ∈ tl.map (fun r => r.id) := List.mem_map.mpr ⟨y, hy1, rfl⟩
      rw [← hxy] at hm
      exact hnd.1 hm
    · exfalso
      subst hy1
      have hm : x.id ∈ tl.map (fun r => r.id) := List.mem_map.mpr ⟨x, hx1, rfl⟩
      rw [hxy] at hm
      exact hnd.1 hm
    · exact ih hnd.2 x hx1 y hy1 hxy

/-- With duplicate-free ids, looking a member's id up finds that member. -/
theorem findById_of_mem :
    ∀ (db : List EventRec), (db.map (fun r => r.id)).Nodup →
      ∀ e ∈ db, findById db e.id = some e := by
  intro db
  induction db with
  | nil =>
    intro _ e he
    exact absurd he (List.not_mem_nil e)
  | cons r tl ih =>
    intro hnd e he
    rw [List.map_cons, List.nodup_cons] at hnd
    by_cases hri : r.id = e.id
    · have her : e = r := by
        rcases List.mem_cons.mp he with h | h
        · exact h
        · exfalso
          have hm : e.id ∈ tl.map (fun r => r.id) :=
            List.mem_map.mpr ⟨e, h, rfl⟩
          rw [← hri] at hm
          exact hnd.1 hm
      subst her
      unfold findById
      rw [List.find?_cons_of_pos _ (by simp)]
    · have hetl : e ∈ tl := by
        rcases List.mem_cons.mp he with h | h
        · exact absurd (by rw [h]) hri
        · exact h
      unfold findById
      rw [List.find?_cons_of_neg _ (by simp [hri])]
      exact ih hnd.2 e hetl

/-- Unfolding a lookup over a cons cell. -/
theorem findById_cons (r : EventRec) (tl : List EventRec) (i : Nat) :
    findById (r :: tl) i = if r.id = i then some r else findById tl i := by
  unfold findById
  by_cases h : r.id = i
  · simp [List.find?, h]
  · have hb : (r.id == i) = false := beq_eq_false_iff_ne.mpr h
    simp [List.find?, hb, h]

/-- An update targeting a different id leaves a lookup unchanged. -/
theorem findById_updateById_ne (j : Nat) (f : EventRec → EventRec)
    (hf : ∀ r, (f r).id = r.id) :
    ∀ (db : List EventRec) (i : Nat), i ≠ j →
      findById (updateById j f db) i = findById db i := by
  intro db
  induction db with
  | nil =>
    intro i _
    rfl
  | cons r tl ih =>
    intro i hij
    by_cases hr : r.id = j
    · have hupd : updateById j f (r :: tl) = f r :: updateById j f tl := by
        simp [updateById, hr]
      rw [hupd, findById_cons, findById_cons,
        if_neg (show ¬ (f r).id = i by
          rw [hf r, hr]; exact fun hh => hij hh.symm),
        if_neg (show ¬ r.id = i by
          rw [hr]; exact fun hh => hij hh.symm)]
      exact ih i hij
    · have hupd : updateById j f (r :: tl) = r :: updateById j f tl := by
        simp [updateById, hr]
      rw [hupd, findById_cons, findById_cons]
      by_cases hri : r.id = i
      · rw [if_pos hri, if_pos hri]
      · rw [if_neg hri, if_neg hri]
        exact ih i hij

/-- An update targeting an id maps the looked-up row through the update. -/
theorem findById_updateById_self (i : Nat) (f : EventRec → EventRec)
    (hf : ∀ r, (f r).id = r.id) :
    ∀ db : List EventRec,
      findById (updateById i f db) i = (findById db i).map f := by
  intro db
  induction db with
  | nil => rfl
  | cons r tl ih =>
    by_cases hr : r.id = i
    · have hupd : updateById i f (r :: tl) = f r :: updateById i f tl := by
        simp [updateById, hr]
      rw [hupd, findById_cons, findById_cons,
        if_pos (show (f r).id = i by rw [hf r]; exact hr), if_pos hr]
      rfl
    · have hupd : updateById i f (r :: tl) = r :: updateById i f tl := by
        simp [updateById, hr]
      rw [hupd, findById_cons, findById_cons, if_neg hr, if_neg hr]
      exact ih

/-- Folding reprocessing steps whose targets all differ from `i` leaves the
lookup of `i` unchanged. -/
theorem foldl_step_ne (attempt : EventRec → Except String Unit) (i : Nat) :
    ∀ (sel : List EventRec) (acc : List EventRec),
      (∀ x ∈ sel, x.id ≠ i) →
      findById (sel.foldl (reprocessStep attempt) acc) i = findById acc i := by
  intro sel
  induction sel with
  | nil =>
    intro acc _
    rfl
  | cons e tl ih =>
    intro acc hx
    rw [List.foldl_cons,
      ih _ (fun x hxx => hx x (List.mem_cons_of_mem e hxx))]
    have hei : i ≠ e.id := fun hh => hx e (List.mem_cons_self e tl) hh.symm
    cases hae : attempt e with
    | ok u =>
      simp only [reprocessStep, hae]
      exact findById_updateById_ne e.id
        (fun r => { r with processed := true }) (fun r => rfl) acc i hei
    | error m =>
      simp only [reprocessStep, hae]
      exact findById_updateById_ne e.id
        (fun r => { r with retry_count := e.retry_count + 1,
                           error_message := some m })
        (fun r => rfl) acc i hei

/-- Folding the reprocessing steps of a duplicate-free selection applies to
the selected row `e` exactly its own update. -/
theorem foldl_step_target (attempt : EventRec → Except String Unit)
    (e : EventRec) (sel : List EventRec) (acc : List EventRec)
    (hnd : (sel.map (fun r => r.id)).Nodup) (hmem : e ∈ sel)
    (hacc : findById acc e.id = some e) :
    findById (sel.foldl (reprocessStep attempt) acc) e.id =
      some (match attempt e with
            | .ok _ => { e with processed := true }
            | .error m => { e with retry_count := e.retry_count + 1,
                                   error_message := some m }) := by
  obtain ⟨pre, post, rfl⟩ := List.append_of_mem hmem
  rw [List.map_append, List.map_cons] at hnd
  rw [List.nodup_append] at hnd
  obtain ⟨hnd1, hnd2, hdisj⟩ := hnd
  have hpre : ∀ x ∈ pre, x.id ≠ e.id := by
    intro x hxx hxe
    have h1 : x.id ∈ pre.map (fun r => r.id) := List.mem_map.mpr ⟨x, hxx, rfl⟩
    have h2 : x.id ∈ e.id :: post.map (fun r => r.id) := by
      rw [hxe]
      exact List.mem_cons_self _ _
    exact hdisj h1 h2
  have hpost : ∀ x ∈ post, x.id ≠ e.id := by
    rw [List.nodup_cons] at hnd2
    intro x hxx hxe
    have h1 : x.id ∈ post.map (fun r => r.id) := List.mem_map.mpr ⟨x, hxx, rfl⟩
    rw [hxe] at h1
    exact hnd2.1 h1
  rw [List.foldl_append, List.foldl_cons]
  rw [foldl_step_ne attempt e.id post _ hpost]
  have hmid : findById (pre.foldl (reprocessStep attempt) acc) e.id =
      some e := by
    rw [foldl_step_ne attempt e.id pre acc hpre]
    exact hacc
  cases hae : attempt e with
  | ok u =>
    simp only [reprocessStep, hae]
    rw [findById_updateById_self e.id
      (fun r => { r with processed := true }) (fun r => rfl), hmid]
    rfl
  | error m =>
    simp only [reprocessStep, hae]
    rw [findById_updateById_self e.id
      (fun r => { r with retry_count := e.retry_count + 1,
                         error_message := some m }) (fun r => rfl), hmid]
    rfl

/-- Claim C8: `reprocess_failed(max_retries)` selects exactly the rows with
`processed = false` and `retry_count ≤ max_retries` (rows over the limit or
already processed are left untouched); each selected row is re-attempted
and, in the resulting table, is marked `processed = true` on success, or has
`retry_count` incremented and the error message recorded on failure. -/
theorem c8_reprocess_failed (attempt : EventRec → Except String Unit)
    (max_retries : Nat) (db : List EventRec)
    (hnd : (db.map (fun r => r.id)).Nodup) (e : EventRec) (he : e ∈ db) :
    (e ∈ selectFailed max_retries db ↔
      (e.processed = false ∧ e.retry_count ≤ max_retries)) ∧
    (e.processed = true ∨ max_retries < e.retry_count →
      findById (reprocessFailedEvents attempt max_retries db) e.id
        = some e) ∧
    (e.processed = false → e.retry_count ≤ max_retries →
      findById (reprocessFailedEvents attempt max_retries db) e.id =
        some (match attempt e with
              | .ok _ => { e with processed := true }
              | .error m => { e with retry_count := e.retry_count + 1,
                                     error_message := some m })) := by
  have hsel_iff : e ∈ selectFailed max_retries db ↔
      (e.processed = false ∧ e.retry_count ≤ max_retries) := by
    unfold selectFailed
    rw [List.mem_filter]
    constructor
    · rintro ⟨_, hp⟩
      simp only [Bool.and_eq_true, Bool.not_eq_true',
        decide_eq_true_eq] at hp
      exact hp
    · intro hp
      refine ⟨he, ?_⟩
      simp only [Bool.and_eq_true, Bool.not_eq_true', decide_eq_true_eq]
      exact hp
  refine ⟨hsel_iff, ?_, ?_⟩
  · intro hcond
    unfold reprocessFailedEvents
    rw [foldl_step_ne attempt e.id _ db ?_]
    · exact findById_of_mem db hnd e he
    · intro x hx hxe
      have hxdb : x ∈ db :=
        (List.mem_filter.mp hx).1
      have hxeq : x = e := id_inj_of_nodup db hnd x hxdb e he hxe
      subst hxeq
      have hprop := hsel_iff.mp hx
      rcases hcond with hc | hc
      · rw [hprop.1] at hc
        exact Bool.false_ne_true hc
      · omega
  · intro hp hr
    unfold reprocessFailedEvents
    have hmem : e ∈ selectFailed max_retries db := hsel_iff.mpr ⟨hp, hr⟩
    have hselnd : ((selectFailed max_retries db).map
        (fun r => r.id)).Nodup := by
      have hsub : List.Sublist (selectFailed max_retries db) db := by
        unfold selectFailed
        exact List.filter_sublist db
      exact List.Nodup.sublist (hsub.map (fun r => r.id)) hnd
    exact foldl_step_target attempt e _ db hselnd hmem
      (findById_of_mem db hnd e he)

/-- Witness for C8 on `demoEvents` with `demoAttempt`, `max_retries = 3`:
row 1 (under the limit, attempt raises) gets `retry_count` bumped and the
error recorded; row 4 (attempt succeeds) is marked processed; row 2
(`retry_count = 5 > 3`) and row 3 (already processed) are untouched. -/
theorem c8_reprocess_failed_witness :
    ((demoEvents.map (fun r => r.id)).Nodup ∧
     ⟨1, "a", false, 0, none⟩ ∈ demoEvents) ∧
    findById (reprocessFailedEvents demoAttempt 3 demoEvents) 1 =
      some ⟨1, "a", false, 1, some "boom"⟩ ∧
    findById (reprocessFailedEvents demoAttempt 3 demoEvents) 4 =
      some ⟨4, "d", true, 1, none⟩ ∧
    findById (reprocessFailedEvents demoAttempt 3 demoEvents) 2 =
      some ⟨2, "b", false, 5, none⟩ ∧
    findById (reprocessFailedEvents demoAttempt 3 demoEvents) 3 =
      some ⟨3, "c", true, 0, none⟩ := by
  have hnd : (demoEvents.map (fun r => r.id)).Nodup := by decide
  refine ⟨⟨hnd, by decide⟩, ?_, ?_, ?_, ?_⟩
  · have h := (c8_reprocess_failed demoAttempt 3 demoEvents hnd
      ⟨1, "a", false, 0, none⟩ (by decide)).2.2 rfl (by decide)
    rw [h]
    rfl
  · have h := (c8_reprocess_failed demoAttempt 3 demoEvents hnd
      ⟨4, "d", false, 1, none⟩ (by decide)).2.2 rfl (by decide)
    rw [h]
    rfl
  · have h := (c8_reprocess_failed demoAttempt 3 demoEvents hnd
      ⟨2, "b", false, 5, none⟩ (by decide)).2.1 (Or.inr (by decide))
    rw [h]
  · have h := (c8_reprocess_failed demoAttempt 3 demoEvents hnd
      ⟨3, "c", true, 0, none⟩ (by decide)).2.1 (Or.inl rfl)
    rw [h]

/-- Claim C9 (code evaluation at the failing inputs): the body raises 401
for a missing user — showing the intended status — but the blanket
`except Exception` re-raises 500; for every authenticated request the
one-argument `get_cached_response(cache_key)` call at line 45 raises
`TypeError` before the agent lookup, so the 404 raise for an unknown agent
and the 200 success paths are unreachable, and the endpoint answers 500 on
every request that reaches the handler — never 401, 404 or 200. -/
theorem c9_chat_status_codes :
    chatBody none none =
      Except.error (PyExc.httpExc 401 "Usuário não autenticado") ∧
    (∀ u agent, chatBody (some u) agent =
      Except.error (PyExc.typeError
        "get_cached_response() missing 2 required positional arguments")) ∧
    (∀ user agent, sendChatMessage user agent = 500) := by
  refine ⟨rfl, fun u agent => rfl, fun user agent => ?_⟩
  cases user with
  | none => rfl
  | some u => rfl

/-- Claim C10: a payload whose `tenant_id` is absent or empty makes
`process_event_webhooks` return immediately: no subscription-table query is
made, no delivery is attempted, and no result is recorded (the subscription
table itself is only ever read by this function). -/
theorem c10_falsy_tenant_skips (http : String → HttpOutcome)
    (table : List WebhookSub) (event_type : String) (data : Payload)
    (h : lookupPayload data "tenant_id" = none ∨
         lookupPayload data "tenant_id" = some "") :
    processEventWebhooks http table event_type data = ⟨[], [], []⟩ := by
  rcases h with h | h
  · simp [processEventWebhooks, h]
  · simp [processEventWebhooks, h]

/-- Witness for C10: with no `tenant_id` key, and with an empty one, the
dispatcher does nothing even though matching active subscriptions exist. -/
theorem c10_falsy_tenant_skips_witness :
    (lookupPayload ([] : Payload) "tenant_id" = none ∨
     lookupPayload ([] : Payload) "tenant_id" = some "") ∧
    processEventWebhooks demoHttp demoTable "ev" [] = ⟨[], [], []⟩ ∧
    processEventWebhooks demoHttp demoTable "ev" [("tenant_id", "")] =
      ⟨[], [], []⟩ :=
  ⟨Or.inl (by decide),
   c10_falsy_tenant_skips demoHttp demoTable "ev" [] (Or.inl (by decide)),
   c10_falsy_tenant_skips demoHttp demoTable "ev" [("tenant_id", "")]
     (Or.inr (by decide))⟩

end NGabi
